import Mathlib

/-!
Verification development for `network_throttle.py`: a small tool that
throttles traffic to a single host on macOS by driving the `pfctl`
(packet filter) and `dnctl` (dummynet) command-line utilities.

The script is straight-line process orchestration, so it is embedded as
lists of *actions* (subprocess invocations, file writes, prints) produced
by each function of the source, together with

* `runActions`    : the control-flow semantics of `subprocess.run`
  (a command run with `check=True` raises `CalledProcessError` when the
  environment makes it fail, aborting the remaining actions; `check=False`
  never raises);
* `applyAction`   : a state-transition semantics for the configuration
  commands, acting on an abstract OS shaping state;
* `main`          : the whole-program model, parameterised by the parsed
  argv, the root privilege bit, the set of failing commands, and whether an
  interrupt eventually arrives during the active-wait loop.
-/

set_option autoImplicit false

namespace NetworkThrottle

/-- An observable action of the script: a subprocess invocation (argument
vector plus the `check` flag passed to `subprocess.run`), a file write, or
a line printed to stdout. -/
inductive Action where
  | run (args : List String) (check : Bool)
  | writeFile (path : String) (contents : String)
  | print (msg : String)
deriving DecidableEq

/-- The anchor rule set written to `/tmp/pf.rules.throttle`
(the `pf_rules` f-string of `setup_pf_and_dummynet`, lines 50-61). -/
def pf_rules (target_host : String) : String :=
  "\n# Skip localhost traffic\nno dummynet quick on lo0 all\n\n# Throttle TCP traffic to specified host\ndummynet in proto tcp from any to "
  ++ target_host ++ " pipe 1\ndummynet out proto tcp from any to " ++ target_host
  ++ " pipe 2\n\n# Throttle UDP traffic to specified host\ndummynet in proto udp from any to "
  ++ target_host ++ " pipe 1\ndummynet out proto udp from any to " ++ target_host
  ++ " pipe 2\n"

/-- The shell pipeline of step 3 of `setup_pf_and_dummynet` (line 46): load
`/etc/pf.conf` plus the two `throttle` anchor attachment lines as the main
rule set. -/
def pfConfPipeline : String :=
  "(cat /etc/pf.conf && echo \x27dummynet-anchor \"throttle\"\x27 && echo \x27anchor \"throttle\"\x27) | pfctl -f -"

/-- The actions of `setup_pf_and_dummynet(target_host, download_rate,
upload_rate)` (lines 23-72), in program order.  Every `subprocess.run` there
passes `check=True` except the final `pfctl -E` (line 72), which passes
`check=False`. -/
def setup_pf_and_dummynet (target_host : String) (download_rate upload_rate : Int) :
    List Action :=
  [Action.run ["dnctl", "-q", "flush"] true,
   Action.run ["dnctl", "pipe", "1", "config", "bw",
               toString download_rate ++ "Kbit/s", "queue", "10"] true,
   Action.run ["dnctl", "pipe", "2", "config", "bw",
               toString upload_rate ++ "Kbit/s", "queue", "10"] true,
   Action.run ["sh", "-c", pfConfPipeline] true,
   Action.writeFile "/tmp/pf.rules.throttle" (pf_rules target_host),
   Action.run ["pfctl", "-a", "throttle", "-f", "/tmp/pf.rules.throttle"] true,
   Action.run ["pfctl", "-E"] false]

/-- The actions of `cleanup()` (lines 15-21): both `subprocess.run` calls
pass `check=False`. -/
def cleanup : List Action :=
  [Action.print "\nCleaning up PF rules...",
   Action.run ["pfctl", "-a", "throttle", "-F", "all"] false,
   Action.run ["dnctl", "-q", "flush"] false,
   Action.print "Cleanup complete"]

/-- Control-flow semantics of executing a list of actions under an
environment `fails` telling which command invocations exit non-zero.
Returns the actions actually performed and, when a `check=True` command
failed, `some` of that command's argument vector (the
`subprocess.CalledProcessError`); the remaining actions are not performed.
`check=False` commands, file writes and prints never raise. -/
def runActions (fails : List String → Bool) : List Action → List Action × Option (List String)
  | [] => ([], none)
  | Action.run args true :: rest =>
      if fails args then ([Action.run args true], some args)
      else
        let r := runActions fails rest
        (Action.run args true :: r.1, r.2)
  | a :: rest =>
      let r := runActions fails rest
      (a :: r.1, r.2)

/-! ### Association-list helpers for the OS-state model -/

/-- Look up a key in an association list (first match). -/
def lookupA {α : Type} (k : String) : List (String × α) → Option α
  | [] => none
  | (k', v) :: l => if k = k' then some v else lookupA k l

/-- Remove every entry with the given key. -/
def eraseA {α : Type} (k : String) : List (String × α) → List (String × α)
  | [] => []
  | (k', v) :: l => if k = k' then eraseA k l else (k', v) :: eraseA k l

/-- Set a key to a value (overwriting any previous entry). -/
def assocSet {α : Type} (k : String) (v : α) (l : List (String × α)) :
    List (String × α) :=
  (k, v) :: eraseA k l

theorem lookupA_assocSet_self {α : Type} (k : String) (v : α) (l : List (String × α)) :
    lookupA k (assocSet k v l) = some v := by
  simp [assocSet, lookupA]

theorem lookupA_eraseA_ne {α : Type} (a k : String) (l : List (String × α))
    (h : a ≠ k) : lookupA a (eraseA k l) = lookupA a l := by
  induction l with
  | nil => rfl
  | cons p l ih =>
    obtain ⟨k', v⟩ := p
    by_cases hk : k = k'
    · subst hk
      simp [eraseA, lookupA, ih, h]
    · by_cases ha : a = k'
      · subst ha
        simp [eraseA, lookupA, hk]
      · simp [eraseA, lookupA, hk, ha, ih]

theorem lookupA_assocSet_ne {α : Type} (a k : String) (v : α) (l : List (String × α))
    (h : a ≠ k) : lookupA a (assocSet k v l) = lookupA a l := by
  simp [assocSet, lookupA, h, lookupA_eraseA_ne a k l h]

theorem eraseA_eraseA {α : Type} (k : String) (l : List (String × α)) :
    eraseA k (eraseA k l) = eraseA k l := by
  induction l with
  | nil => rfl
  | cons p l ih =>
    obtain ⟨k', v⟩ := p
    by_cases hk : k = k'
    · subst hk
      simp [eraseA, ih]
    · simp [eraseA, hk, ih]

theorem eraseA_assocSet_self {α : Type} (k : String) (v : α) (l : List (String × α)) :
    eraseA k (assocSet k v l) = eraseA k l := by
  simp [assocSet, eraseA, eraseA_eraseA]

/-! ### Abstract OS shaping state

`pfctl` and `dnctl` are external collaborators of the script (spec section 6);
their effect on the machine-wide shaping configuration is modelled from the
spec's description of anchors and queues. -/

/-- Modelled from the spec: the machine-wide packet-filter / shaper
configuration the script mutates (spec sections 3, 5, 6 and the glossary).
`pipes` maps a dummynet pipe number to its configured bandwidth string;
`anchorRules` maps an anchor name to the rule text currently loaded into it;
`anchorAttached` records whether the `throttle` anchor attachment lines have
been loaded into the main rule set; `pfEnabled` is the packet-filter enable
flag; `files` is the scratch file system. -/
structure OsState where
  pipes : List (String × String)
  anchorRules : List (String × String)
  anchorAttached : Bool
  pfEnabled : Bool
  files : List (String × String)
deriving DecidableEq

/-- Modelled from the spec: the effect of one command invocation on the OS
shaping state (spec section 6 and glossary: an anchor is "a named, isolated
group of packet-filter rules that can be loaded/flushed independently", a
pipe is a shaper queue; `dnctl flush` clears the whole dummynet
configuration, `dnctl pipe N config bw B` configures pipe `N`,
`pfctl -a A -f FILE` loads `FILE` into anchor `A`, `pfctl -a A -F all`
flushes anchor `A`, `pfctl -E` enables packet filtering, and the `sh -c`
pipeline of setup step 3 loads the main rule set with the `throttle` anchor
attached). Unknown commands leave the state unchanged. -/
def applyRun (s : OsState) : List String → OsState
  | ["dnctl", "-q", "flush"] => { s with pipes := [] }
  | ["dnctl", "pipe", n, "config", "bw", bw, "queue", _q] =>
      { s with pipes := assocSet n bw s.pipes }
  | ["sh", "-c", _c] => { s with anchorAttached := true }
  | ["pfctl", "-a", a, "-F", "all"] =>
      { s with anchorRules := assocSet a "" s.anchorRules }
  | ["pfctl", "-a", a, "-f", p] =>
      { s with anchorRules := assocSet a ((lookupA p s.files).getD "") s.anchorRules }
  | ["pfctl", "-E"] => { s with pfEnabled := true }
  | _ => s

/-- Effect of one action on the OS state: prints change nothing, a file
write overwrites the file at its path, commands act via `applyRun`. -/
def applyAction (s : OsState) : Action → OsState
  | Action.print _ => s
  | Action.writeFile p c => { s with files := assocSet p c s.files }
  | Action.run args _ => applyRun s args

/-- Effect of a list of actions, in order. -/
def applyActions (s : OsState) (l : List Action) : OsState :=
  l.foldl applyAction s

/-! ### Hostname extraction (`urllib.parse.urlparse(url).hostname`, line 85-86)

The script relies on CPython's `urllib.parse` for step "Parse target URL →
hostname"; the definitions below transcribe the relevant slice of CPython's
`urlsplit` and the `hostname` property (scheme recognition, netloc up to the
first of `/?#`, userinfo stripped at the last `@`, bracketed IPv6 literals,
port stripped at `:`, final lowercasing), over plain character lists.
WHATWG control-character stripping and `params` handling are outside the
claims' scope and are not modelled. -/

/-- Characters allowed in a URL scheme (`scheme_chars` of `urllib.parse`). -/
def schemeChar (c : Char) : Bool :=
  c.isAlpha || c.isDigit || c = '+' || c = '-' || c = '.'

/-- Split at the first colon: the characters before it and those after. -/
def upToColon : List Char → Option (List Char × List Char)
  | [] => none
  | ':' :: t => some ([], t)
  | c :: t => (upToColon t).map (fun p => (c :: p.1, p.2))

/-- Characters before the first one satisfying `p`. -/
def takeUntil (p : Char → Bool) : List Char → List Char
  | [] => []
  | c :: t => if p c then [] else c :: takeUntil p t

/-- Characters strictly after the first one satisfying `p` (everything when
no character satisfies it). -/
def afterFirst (p : Char → Bool) : List Char → List Char
  | [] => []
  | c :: t => if p c then t else afterFirst p t

/-- Drop a leading `scheme:` when the prefix before the first colon is a
well-formed non-empty scheme starting with a letter (CPython `urlsplit`). -/
def stripScheme (cs : List Char) : List Char :=
  match upToColon cs with
  | some (pre, post) =>
      match pre with
      | [] => cs
      | c :: _ => if c.isAlpha ∧ pre.all schemeChar then post else cs
  | none => cs

/-- The netloc: present only when the (scheme-stripped) URL starts with
`//`, and extends to the first `/`, `?` or `#`. -/
def netlocOf : List Char → Option (List Char)
  | '/' :: '/' :: rest => some (takeUntil (fun c => c = '/' || c = '?' || c = '#') rest)
  | _ => none

/-- The characters after the last `@` (the whole list when there is none):
`netloc.rpartition(\x27@\x27)[2]` of CPython's `_hostinfo`. -/
def afterLastAt (cs : List Char) : List Char :=
  (cs.reverse.takeWhile (fun c => c ≠ '@')).reverse

/-- The host characters of a `hostinfo`: the part after the first `[` up to
`]` when a bracket is present (IPv6 literal), otherwise up to the first `:`
(port separator), following CPython's `_hostinfo`. -/
def hostOf (hostinfo : List Char) : List Char :=
  if hostinfo.any (fun c => c = '[') then
    takeUntil (fun c => c = ']') (afterFirst (fun c => c = '[') hostinfo)
  else takeUntil (fun c => c = ':') hostinfo

/-- An empty host is reported as absent (`if not hostname: return None`). -/
def hostNonempty : List Char → Option (List Char)
  | [] => none
  | c :: t => some (c :: t)

/-- The verbatim host characters of a URL, or `none` when the URL has no
netloc or an empty host. -/
def hostRaw (url : String) : Option (List Char) :=
  (netlocOf (stripScheme url.data)).bind (fun nl => hostNonempty (hostOf (afterLastAt nl)))

/-- ASCII lowercasing of a string, character by character. -/
def strLower (s : String) : String :=
  String.mk (s.data.map Char.toLower)

/-- The model of `urllib.parse.urlparse(url).hostname` (line 86): the host
part of the netloc, lowercased; `none` when absent or empty. -/
def urlparseHostname (url : String) : Option String :=
  (hostRaw url).map (fun h => String.mk (h.map Char.toLower))

/-- Modelled from the spec: "the URL's host component" (spec section 8) —
the host subcomponent of the URL's authority, verbatim as it appears in the
URL (for a bracketed IPv6 literal, the address inside the brackets). -/
def specHostComponent (url : String) : Option String :=
  (hostRaw url).map String.mk

/-! ### Command-line interface (lines 75-82)

`argparse` with one required positional `url` and two `type=int` options
`--download` and `--upload`, both defaulting to `1000`.  The model covers
the surface the script declares: `--flag value` option syntax, any-sign
integer values, option-like tokens otherwise rejected (argparse's
abbreviation and `--flag=value` forms are outside the claims' scope). -/

/-- The parsed arguments (`args` of `main`). -/
structure Args where
  url : String
  download : Int
  upload : Int
deriving DecidableEq

/-- Decimal digits to a number; `none` on a non-digit. -/
def digitsToNatAux (acc : Nat) : List Char → Option Nat
  | [] => some acc
  | c :: t => if c.isDigit then digitsToNatAux (acc * 10 + (c.toNat - 48)) t else none

/-- Non-empty all-digit character list to a number. -/
def digitsToNat : List Char → Option Nat
  | [] => none
  | c :: t => digitsToNatAux 0 (c :: t)

/-- Python `int(s)` on an optional-sign decimal literal (`type=int`). -/
def parseInt (s : String) : Option Int :=
  match s.data with
  | '-' :: t => (digitsToNat t).map (fun n => -(n : Int))
  | '+' :: t => (digitsToNat t).map (fun n => (n : Int))
  | t => (digitsToNat t).map (fun n => (n : Int))

/-- Does a token look like an option (leading dash)? -/
def isOptionLike (t : String) : Bool :=
  match t.data with
  | '-' :: _ => true
  | _ => false

/-- One pass over the argv tokens, carrying the positional seen so far and
the current values of the two rates: a rate flag consumes the following
token as its integer value, any other option-like token is rejected, and
exactly one positional (the URL) is required. -/
def parseArgsAux : List String → Option String → Int → Int → Option Args
  | [], u, d, up => u.map (fun u0 => Args.mk u0 d up)
  | [t], u, d, up =>
      if t = "--download" ∨ t = "--upload" then none
      else if isOptionLike t then none
      else if u = none then some (Args.mk t d up)
      else none
  | t :: v :: rest, u, d, up =>
      if t = "--download" then (parseInt v).bind (fun n => parseArgsAux rest u n up)
      else if t = "--upload" then (parseInt v).bind (fun n => parseArgsAux rest u d n)
      else if isOptionLike t then none
      else if u = none then parseArgsAux (v :: rest) (some t) d up
      else none

/-- The argument parsing of `main` (lines 75-82): one required positional
URL; `--download` and `--upload` take an integer and default to 1000. -/
def parseArgs (argv : List String) : Option Args :=
  parseArgsAux argv none 1000 1000

/-! ### The whole program (`main`, lines 74-114) -/

/-- The outcome of a terminating run: the process exit code and the actions
performed, in order. -/
structure ProgResult where
  exitCode : Nat
  trace : List Action
deriving DecidableEq

/-- The diagnostic printed by the `except subprocess.CalledProcessError`
handler (line 113) for a failed command. -/
def cmdErrText (c : List String) : String :=
  "Error occurred: " ++ String.intercalate " " c

/-- Whole-program model of `main` (lines 74-114).  `argv` is the argument
vector; `isRoot` the `os.geteuid() == 0` test of `check_root`; `fails`
tells which command invocations exit non-zero; `intr` whether a SIGINT
eventually arrives during the active-wait loop.  Returns `none` when the
run never terminates (setup succeeded and no interrupt arrives), otherwise
the exit code and the performed actions.  Control flow of the source:
argparse errors exit 2; a hostless URL prints and exits 1; a missing root
privilege prints and exits 1; only then is `cleanup` registered via
`atexit` and the SIGINT handler set to `sys.exit(0)`, so the `atexit`
machinery runs `cleanup` exactly once on each of the later exit paths:
a `CalledProcessError` during setup is caught, printed, and turned into
`sys.exit(1)`; an interrupt during the wait loop becomes `sys.exit(0)`. -/
def main (argv : List String) (isRoot : Bool) (fails : List String → Bool)
    (intr : Bool) : Option ProgResult :=
  match parseArgs argv with
  | none => some ⟨2, []⟩
  | some a =>
      match urlparseHostname a.url with
      | none => some ⟨1, [Action.print "Invalid URL provided"]⟩
      | some host =>
          if isRoot then
            let pre : List Action :=
              [Action.print ("Setting up throttling for " ++ host),
               Action.print ("Download speed: " ++ toString a.download ++ " Kbit/s"),
               Action.print ("Upload speed: " ++ toString a.upload ++ " Kbit/s")]
            match runActions fails (setup_pf_and_dummynet host a.download a.upload) with
            | (performed, some c) =>
                some ⟨1, pre ++ performed ++ [Action.print (cmdErrText c)] ++ cleanup⟩
            | (performed, none) =>
                if intr then
                  some ⟨0, pre ++ performed
                        ++ [Action.print "\nThrottling is now active. Press Ctrl+C to stop and cleanup."]
                        ++ cleanup⟩
                else none
          else some ⟨1, [Action.print "This script must be run as root (use sudo)"]⟩

/-- The anchor-scoped flush command issued only by `cleanup` (line 18);
counting its occurrences in a trace counts the cleanup invocations. -/
def anchorFlushCmd : Action :=
  Action.run ["pfctl", "-a", "throttle", "-F", "all"] false

/-- Number of cleanup invocations visible in a trace. -/
def cleanupCount : List Action → Nat
  | [] => 0
  | a :: t => (if a = anchorFlushCmd then 1 else 0) + cleanupCount t

/-- Does an action mutate OS or file-system state (anything but a print)? -/
def isMutating : Action → Bool
  | Action.print _ => false
  | _ => true

/-! ### The anchor rule set as packet-classification rules (lines 50-61)

The five lines of `pf_rules` are transcribed structurally, together with
pf's evaluation order (last matching rule wins; a `quick` rule stops
evaluation immediately), so that the traffic the configuration throttles
can be reasoned about. -/

/-- Packet direction, as in pf's `in` / `out`. -/
inductive Dir where
  | inbound
  | outbound
deriving DecidableEq

/-- The two protocols the rules mention. -/
inductive Proto where
  | tcp
  | udp
deriving DecidableEq

/-- A packet as far as the generated rules can distinguish it: the
interface it crosses, its direction, protocol, and source/destination
host. -/
structure Packet where
  iface : String
  dir : Dir
  proto : Proto
  src : String
  dst : String

/-- One line of the `pf_rules` anchor rule set. -/
inductive AnchorRule where
  /-- `no dummynet quick on lo0 all` (line 52). -/
  | noLo0Quick
  /-- `dummynet DIR proto PROTO from any to DST pipe K` (lines 55-60). -/
  | dummynet (dir : Dir) (proto : Proto) (dst : String) (pipe : Nat)

/-- The structural content of `pf_rules target_host`, line by line. -/
def pf_rules_structured (target_host : String) : List AnchorRule :=
  [AnchorRule.noLo0Quick,
   AnchorRule.dummynet Dir.inbound Proto.tcp target_host 1,
   AnchorRule.dummynet Dir.outbound Proto.tcp target_host 2,
   AnchorRule.dummynet Dir.inbound Proto.udp target_host 1,
   AnchorRule.dummynet Dir.outbound Proto.udp target_host 2]

/-- pf rule evaluation: rules are scanned in order, a matching `dummynet`
rule records its pipe (later matches override earlier ones), and a matching
`quick` rule ends evaluation at once — here with no pipe assigned. -/
def evalRules (p : Packet) : List AnchorRule → Option Nat → Option Nat
  | [], acc => acc
  | AnchorRule.noLo0Quick :: rest, acc =>
      if p.iface = "lo0" then none else evalRules p rest acc
  | AnchorRule.dummynet d pr dst k :: rest, acc =>
      if p.dir = d ∧ p.proto = pr ∧ p.dst = dst then evalRules p rest (some k)
      else evalRules p rest acc

/-- The pipe the loaded anchor rule set assigns to a packet, if any. -/
def assignedPipe (target_host : String) (p : Packet) : Option Nat :=
  evalRules p (pf_rules_structured target_host) none

/-- The pipe number each direction's rules use (pipe 1 for `in`, pipe 2 for
`out`, lines 55-60). -/
def dirPipe : Dir → Nat
  | Dir.inbound => 1
  | Dir.outbound => 2

/-- The bandwidth each `dnctl pipe N config` command configures (lines
29-40): pipe 1 gets the download rate, pipe 2 the upload rate. -/
def pipeBw (download_rate upload_rate : Int) : Nat → Option Int
  | 1 => some download_rate
  | 2 => some upload_rate
  | _ => none

/-! ### Helper lemmas about `runActions` and traces -/

/-- `l₁` is a prefix of `l₂`. -/
def IsPrefixOf (l₁ l₂ : List Action) : Prop :=
  ∃ t, l₁ ++ t = l₂

/-- The last action of a list, if any. -/
def lastA : List Action → Option Action
  | [] => none
  | [a] => some a
  | _ :: b :: t => lastA (b :: t)

theorem lastA_cons_cons (a b : Action) (t : List Action) :
    lastA (a :: b :: t) = lastA (b :: t) := rfl

theorem IsPrefixOf.mem {p l : List Action} {x : Action}
    (h : IsPrefixOf p l) (hx : x ∈ p) : x ∈ l := by
  obtain ⟨t, rfl⟩ := h
  exact List.mem_append_left t hx

theorem IsPrefixOf.cons (a : Action) {p l : List Action} (h : IsPrefixOf p l) :
    IsPrefixOf (a :: p) (a :: l) := by
  obtain ⟨t, rfl⟩ := h
  exact ⟨t, rfl⟩

/-- The actions performed are always a prefix of those requested. -/
theorem runActions_fst_isPre (fails : List String → Bool) :
    ∀ l : List Action, IsPrefixOf (runActions fails l).1 l := by
  intro l
  induction l with
  | nil => exact ⟨[], rfl⟩
  | cons a rest ih =>
    match a with
    | Action.run args true =>
      by_cases h : fails args
      · simp only [runActions, h, if_true]
        exact ⟨rest, rfl⟩
      · simp only [runActions, h, if_false]
        exact ih.cons _
    | Action.run args false => exact ih.cons _
    | Action.writeFile p c => exact ih.cons _
    | Action.print m => exact ih.cons _

/-- When no checked command fails, every action is performed. -/
theorem runActions_none_full (fails : List String → Bool) :
    ∀ l : List Action, (runActions fails l).2 = none → (runActions fails l).1 = l := by
  intro l
  induction l with
  | nil => intro; rfl
  | cons a rest ih =>
    match a with
    | Action.run args true =>
      by_cases h : fails args
      · simp [runActions, h]
      · simp only [runActions, h, if_false]
        intro h2
        simp [ih h2]
    | Action.run args false =>
      intro h2
      simp only [runActions] at h2 ⊢
      simp [ih h2]
    | Action.writeFile p c =>
      intro h2
      simp only [runActions] at h2 ⊢
      simp [ih h2]
    | Action.print m =>
      intro h2
      simp only [runActions] at h2 ⊢
      simp [ih h2]

/-- When a checked command fails, the last performed action is precisely
that failing checked command, and the environment indeed fails it. -/
theorem runActions_fail_last (fails : List String → Bool) :
    ∀ (l performed : List Action) (c : List String),
      runActions fails l = (performed, some c) →
      lastA performed = some (Action.run c true) ∧ fails c = true := by
  intro l
  induction l with
  | nil => intro performed c h; simp [runActions] at h
  | cons a rest ih =>
    intro performed c h
    match a with
    | Action.run args true =>
      by_cases hf : fails args
      · simp only [runActions, hf, if_true] at h
        obtain ⟨h1, h2⟩ := Prod.mk.injEq .. ▸ h
        subst h1
        cases h2
        exact ⟨rfl, hf⟩
      · simp only [runActions, hf, if_false] at h
        obtain ⟨h1, h2⟩ := Prod.mk.injEq .. ▸ h
        obtain ⟨last, hfl⟩ := ih (runActions fails rest).1 c (by
          rw [← h2])
        subst h1
        refine ⟨?_, hfl⟩
        match hm : (runActions fails rest).1 with
        | [] => rw [hm] at last; simp [lastA] at last
        | b :: t => rw [hm] at last; rw [lastA_cons_cons]; exact last
    | Action.run args false =>
      simp only [runActions] at h
      obtain ⟨h1, h2⟩ := Prod.mk.injEq .. ▸ h
      obtain ⟨last, hfl⟩ := ih (runActions fails rest).1 c (by
        rw [← h2])
      subst h1
      refine ⟨?_, hfl⟩
      match hm : (runActions fails rest).1 with
      | [] => rw [hm] at last; simp [lastA] at last
      | b :: t => rw [hm] at last; rw [lastA_cons_cons]; exact last
    | Action.writeFile p cts =>
      simp only [runActions] at h
      obtain ⟨h1, h2⟩ := Prod.mk.injEq .. ▸ h
      obtain ⟨last, hfl⟩ := ih (runActions fails rest).1 c (by
        rw [← h2])
      subst h1
      refine ⟨?_, hfl⟩
      match hm : (runActions fails rest).1 with
      | [] => rw [hm] at last; simp [lastA] at last
      | b :: t => rw [hm] at last; rw [lastA_cons_cons]; exact last
    | Action.print m =>
      simp only [runActions] at h
      obtain ⟨h1, h2⟩ := Prod.mk.injEq .. ▸ h
      obtain ⟨last, hfl⟩ := ih (runActions fails rest).1 c (by
        rw [← h2])
      subst h1
      refine ⟨?_, hfl⟩
      match hm : (runActions fails rest).1 with
      | [] => rw [hm] at last; simp [lastA] at last
      | b :: t => rw [hm] at last; rw [lastA_cons_cons]; exact last

theorem cleanupCount_append (l m : List Action) :
    cleanupCount (l ++ m) = cleanupCount l + cleanupCount m := by
  induction l with
  | nil => simp [cleanupCount]
  | cons a t ih => simp [cleanupCount, ih]; omega

theorem cleanupCount_eq_zero {l : List Action}
    (h : ∀ x ∈ l, x ≠ anchorFlushCmd) : cleanupCount l = 0 := by
  induction l with
  | nil => rfl
  | cons a t ih =>
    have ha : a ≠ anchorFlushCmd := h a (List.mem_cons_self a t)
    simp only [cleanupCount, if_neg ha, Nat.zero_add]
    exact ih (fun x hx => h x (List.mem_cons_of_mem a hx))

theorem anchorFlushCmd_not_mem_setup (host : String) (dl ul : Int) :
    anchorFlushCmd ∉ setup_pf_and_dummynet host dl ul := by
  intro h
  simp only [setup_pf_and_dummynet, anchorFlushCmd, List.mem_cons,
    List.not_mem_nil, or_false] at h
  rcases h with h | h | h | h | h | h | h <;> simp_all

/-- No cleanup invocation is visible among the setup actions. -/
theorem cleanupCount_setup (host : String) (dl ul : Int) :
    cleanupCount (setup_pf_and_dummynet host dl ul) = 0 :=
  cleanupCount_eq_zero (fun _ hx h => anchorFlushCmd_not_mem_setup host dl ul (h ▸ hx))

/-- Exactly one cleanup invocation is visible in `cleanup` itself. -/
theorem cleanupCount_cleanup : cleanupCount cleanup = 1 := by
  simp [cleanup, cleanupCount, anchorFlushCmd]

theorem assocSet_assocSet_self {α : Type} (k : String) (v : α) (l : List (String × α)) :
    assocSet k v (assocSet k v l) = assocSet k v l := by
  unfold assocSet
  rw [show eraseA k ((k, v) :: eraseA k l) = eraseA k (eraseA k l) by simp [eraseA],
    eraseA_eraseA]

/-- Normal form of the OS state after a fully successful setup: the two
pipes configured (every pre-existing pipe flushed away), the `pf_rules`
text loaded into the `throttle` anchor, the anchor attached to the main
rule set, packet filtering enabled, and the rules file written. -/
theorem applyActions_setup (s : OsState) (host : String) (dl ul : Int) :
    applyActions s (setup_pf_and_dummynet host dl ul) =
      { pipes := assocSet "2" (toString ul ++ "Kbit/s")
                   (assocSet "1" (toString dl ++ "Kbit/s") []),
        anchorRules := assocSet "throttle" (pf_rules host) s.anchorRules,
        anchorAttached := true,
        pfEnabled := true,
        files := assocSet "/tmp/pf.rules.throttle" (pf_rules host) s.files } := by
  simp [applyActions, setup_pf_and_dummynet, applyAction, applyRun, lookupA_assocSet_self]

/-- Normal form of the OS state after `cleanup`: the `throttle` anchor's
rules emptied and the entire dummynet pipe configuration flushed; nothing
else changes. -/
theorem applyActions_cleanup (s : OsState) :
    applyActions s cleanup =
      { s with anchorRules := assocSet "throttle" "" s.anchorRules, pipes := [] } := by
  simp [applyActions, cleanup, applyAction, applyRun]

/-! ## The claims -/

/-- C1, counterexample: the final setup step `pfctl -E` (enable packet
filtering) is one of the commands the installer runs, yet when exactly that
command fails the run is not aborted: setup continues, and an interrupted
run exits with code 0, not non-zero.  This refutes the claim that a failure
of *every* command the installer runs — "including the final step that
enables packet filtering" — leads to a non-zero exit. -/
theorem enablePF_failure_ignored_cex :
    Action.run ["pfctl", "-E"] false ∈ setup_pf_and_dummynet "example.com" 1000 1000
    ∧ (fun args => args == ["pfctl", "-E"]) ["pfctl", "-E"] = true
    ∧ (runActions (fun args => args == ["pfctl", "-E"])
        (setup_pf_and_dummynet "example.com" 1000 1000)).2 = none
    ∧ (main ["http://example.com/"] true (fun args => args == ["pfctl", "-E"]) true).map
        ProgResult.exitCode = some 0 := by
  refine ⟨by decide, by decide, by decide, by decide⟩

/-- C1, amended: if any of the *checked* configuration commands invoked
during setup fails, the program aborts all remaining setup steps (the
performed actions are a prefix of the setup actions ending at the failing
checked command), prints a diagnostic, runs cleanup exactly once, and exits
with code 1 — for every hostname and pair of rates.  The final step that
enables packet filtering, however, is invoked with `check=False`, so its
failure is ignored (see the counterexample). -/
theorem checked_setup_failure_fails_loudly
    (argv : List String) (a : Args) (host : String) (fails : List String → Bool)
    (intr : Bool) (performed : List Action) (c : List String)
    (hp : parseArgs argv = some a)
    (hh : urlparseHostname a.url = some host)
    (hr : runActions fails (setup_pf_and_dummynet host a.download a.upload)
            = (performed, some c)) :
    (main argv true fails intr).map (fun r => (r.exitCode, cleanupCount r.trace))
        = some (1, 1)
    ∧ (main argv true fails intr).map
        (fun r => decide (Action.print (cmdErrText c) ∈ r.trace)) = some true
    ∧ IsPrefixOf performed (setup_pf_and_dummynet host a.download a.upload)
    ∧ lastA performed = some (Action.run c true)
    ∧ fails c = true
    ∧ lastA (setup_pf_and_dummynet host a.download a.upload)
        = some (Action.run ["pfctl", "-E"] false) := by
  have hmain : main argv true fails intr =
      some ⟨1, [Action.print ("Setting up throttling for " ++ host),
                Action.print ("Download speed: " ++ toString a.download ++ " Kbit/s"),
                Action.print ("Upload speed: " ++ toString a.upload ++ " Kbit/s")]
            ++ performed ++ [Action.print (cmdErrText c)] ++ cleanup⟩ := by
    simp [main, hp, hh, hr]
  have hpre : IsPrefixOf performed (setup_pf_and_dummynet host a.download a.upload) := by
    have := runActions_fst_isPre fails (setup_pf_and_dummynet host a.download a.upload)
    rwa [hr] at this
  have hccp : cleanupCount performed = 0 :=
    cleanupCount_eq_zero (fun _ hx h =>
      anchorFlushCmd_not_mem_setup host a.download a.upload (h ▸ hpre.mem hx))
  have hlast := runActions_fail_last fails
    (setup_pf_and_dummynet host a.download a.upload) performed c hr
  refine ⟨?_, ?_, hpre, hlast.1, hlast.2, by simp [setup_pf_and_dummynet, lastA]⟩
  · rw [hmain]
    simp [cleanupCount_append, hccp, cleanupCount_cleanup, cleanupCount, anchorFlushCmd]
  · rw [hmain]
    simp [List.mem_append]

/-- C1, witness for the amended theorem: with the very first setup command
(`dnctl -q flush`) failing on a concrete invocation, the program aborts
after that command, prints the diagnostic, cleans up once and exits 1. -/
theorem checked_setup_failure_fails_loudly_witness :
    (main ["http://example.com/"] true (fun args => args == ["dnctl", "-q", "flush"]) false).map
        (fun r => (r.exitCode, cleanupCount r.trace)) = some (1, 1)
    ∧ (main ["http://example.com/"] true (fun args => args == ["dnctl", "-q", "flush"]) false).map
        (fun r => decide (Action.print (cmdErrText ["dnctl", "-q", "flush"]) ∈ r.trace))
        = some true
    ∧ IsPrefixOf [Action.run ["dnctl", "-q", "flush"] true]
        (setup_pf_and_dummynet "example.com" 1000 1000)
    ∧ lastA [Action.run ["dnctl", "-q", "flush"] true]
        = some (Action.run ["dnctl", "-q", "flush"] true)
    ∧ (fun args => args == ["dnctl", "-q", "flush"]) ["dnctl", "-q", "flush"] = true
    ∧ lastA (setup_pf_and_dummynet "example.com" 1000 1000)
        = some (Action.run ["pfctl", "-E"] false) :=
  checked_setup_failure_fails_loudly ["http://example.com/"]
    ⟨"http://example.com/", 1000, 1000⟩ "example.com"
    (fun args => args == ["dnctl", "-q", "flush"]) false
    [Action.run ["dnctl", "-q", "flush"] true] ["dnctl", "-q", "flush"]
    (by decide) (by decide) (by decide)

/-- C2, counterexample: a dummynet pipe created by somebody else (pipe "5",
42 Kbit/s) is present before the script's cleanup runs and gone afterwards:
the `dnctl -q flush` that cleanup issues clears the *entire* dummynet
configuration, not just the script's own queues, so pre-existing unrelated
shaping configuration is not left intact. -/
theorem cleanup_flushes_unrelated_pipe_cex :
    lookupA "5" (OsState.mk [("5", "42Kbit/s")] [] false false []).pipes
        = some "42Kbit/s"
    ∧ lookupA "5"
        (applyActions (OsState.mk [("5", "42Kbit/s")] [] false false []) cleanup).pipes
        = none
    ∧ Action.run ["dnctl", "-q", "flush"] false ∈ cleanup
    ∧ Action.run ["dnctl", "-q", "flush"] true ∈ setup_pf_and_dummynet "example.com" 500 200 := by
  refine ⟨by decide, by decide, by decide, by decide⟩

/-- C2, amended: the packet-filter flush and load commands the program
issues are scoped to its own `throttle` anchor — for any other anchor name,
neither setup nor cleanup changes that anchor's rules — but the dummynet
flushes issued at the start of setup and during cleanup are global: after
either, the machine-wide pipe configuration contains only what the script
itself put there (all pre-existing pipes are destroyed). -/
theorem pf_scoped_but_dummynet_flush_global
    (s : OsState) (host : String) (dl ul : Int) (a : String)
    (ha : a ≠ "throttle") :
    lookupA a (applyActions s cleanup).anchorRules = lookupA a s.anchorRules
    ∧ lookupA a (applyActions s (setup_pf_and_dummynet host dl ul)).anchorRules
        = lookupA a s.anchorRules
    ∧ (applyActions s cleanup).pipes = []
    ∧ (applyActions s (setup_pf_and_dummynet host dl ul)).pipes
        = assocSet "2" (toString ul ++ "Kbit/s") (assocSet "1" (toString dl ++ "Kbit/s") []) := by
  rw [applyActions_cleanup, applyActions_setup]
  exact ⟨lookupA_assocSet_ne a "throttle" "" s.anchorRules ha,
    lookupA_assocSet_ne a "throttle" (pf_rules host) s.anchorRules ha, rfl, rfl⟩

/-- C2, witness for the amended theorem at a concrete state with an
unrelated anchor and an unrelated pipe. -/
theorem pf_scoped_but_dummynet_flush_global_witness :
    lookupA "other"
        (applyActions (OsState.mk [("5", "42Kbit/s")] [("other", "r")] false false [])
          cleanup).anchorRules
        = lookupA "other" (OsState.mk [("5", "42Kbit/s")] [("other", "r")] false false []).anchorRules
    ∧ lookupA "other"
        (applyActions (OsState.mk [("5", "42Kbit/s")] [("other", "r")] false false [])
          (setup_pf_and_dummynet "example.com" 500 200)).anchorRules
        = lookupA "other" (OsState.mk [("5", "42Kbit/s")] [("other", "r")] false false []).anchorRules
    ∧ (applyActions (OsState.mk [("5", "42Kbit/s")] [("other", "r")] false false [])
        cleanup).pipes = []
    ∧ (applyActions (OsState.mk [("5", "42Kbit/s")] [("other", "r")] false false [])
        (setup_pf_and_dummynet "example.com" 500 200)).pipes
        = assocSet "2" (toString (200 : Int) ++ "Kbit/s")
            (assocSet "1" (toString (500 : Int) ++ "Kbit/s") []) :=
  pf_scoped_but_dummynet_flush_global
    (OsState.mk [("5", "42Kbit/s")] [("other", "r")] false false [])
    "example.com" 500 200 "other" (by decide)

/-- C3, counterexample: starting from a pristine state (no pipes, no
anchors, packet filtering disabled, empty file system), running the full
installer and then cleanup does *not* restore the original state: the
`throttle` anchor attachment is still loaded in the main rule set, packet
filtering is still enabled, and the rules file is still on disk. -/
theorem cleanup_not_full_restore_cex :
    (applyActions (applyActions (OsState.mk [] [] false false [])
        (setup_pf_and_dummynet "example.com" 500 200)) cleanup).anchorAttached = true
    ∧ (applyActions (applyActions (OsState.mk [] [] false false [])
        (setup_pf_and_dummynet "example.com" 500 200)) cleanup).pfEnabled = true
    ∧ (OsState.mk [] [] false false []).anchorAttached = false
    ∧ (OsState.mk [] [] false false []).pfEnabled = false
    ∧ applyActions (applyActions (OsState.mk [] [] false false [])
        (setup_pf_and_dummynet "example.com" 500 200)) cleanup
        ≠ OsState.mk [] [] false false [] := by
  refine ⟨by decide, by decide, by decide, by decide, ?_⟩
  intro h
  have := congrArg OsState.pfEnabled h
  simp [applyActions_cleanup, applyActions_setup] at this

/-- C3, amended: after a successful install followed by cleanup, every rule
and queue the installer created is removed — the `throttle` anchor's rule
set is empty and the dummynet pipe table is empty — but the system is not
returned to its pre-run state: the `throttle` anchor attachment remains in
the main rule set, packet filtering remains enabled, and the rules file
remains on disk. -/
theorem cleanup_removes_rules_but_leaves_attachment
    (s : OsState) (host : String) (dl ul : Int) :
    (applyActions (applyActions s (setup_pf_and_dummynet host dl ul)) cleanup).pipes = []
    ∧ lookupA "throttle"
        (applyActions (applyActions s (setup_pf_and_dummynet host dl ul)) cleanup).anchorRules
        = some ""
    ∧ (applyActions (applyActions s (setup_pf_and_dummynet host dl ul)) cleanup).anchorAttached
        = true
    ∧ (applyActions (applyActions s (setup_pf_and_dummynet host dl ul)) cleanup).pfEnabled
        = true
    ∧ lookupA "/tmp/pf.rules.throttle"
        (applyActions (applyActions s (setup_pf_and_dummynet host dl ul)) cleanup).files
        = some (pf_rules host) := by
  rw [applyActions_setup, applyActions_cleanup]
  exact ⟨rfl, lookupA_assocSet_self _ _ _, rfl, rfl, lookupA_assocSet_self _ _ _⟩

/-- C4: once setup has begun (valid URL, root, cleanup registered), every
terminating run shows exactly one cleanup invocation in its trace —
whether setup failed or an interrupt ended the wait loop — and an interrupt
delivered during the active-wait phase yields full cleanup and exit code 0.
A run in which setup succeeds and no interrupt ever arrives does not
terminate (there is no further exit path). -/
theorem cleanup_runs_once_on_every_exit
    (argv : List String) (a : Args) (host : String) (fails : List String → Bool)
    (intr : Bool)
    (hp : parseArgs argv = some a)
    (hh : urlparseHostname a.url = some host) :
    ((main argv true fails intr).map (fun r => cleanupCount r.trace) = some 1
      ∨ main argv true fails intr = none)
    ∧ ((runActions fails (setup_pf_and_dummynet host a.download a.upload)).2 = none →
        intr = true →
        (main argv true fails intr).map (fun r => (r.exitCode, cleanupCount r.trace))
          = some (0, 1))
    ∧ ((runActions fails (setup_pf_and_dummynet host a.download a.upload)).2 = none →
        intr = false → main argv true fails intr = none) := by
  match hr : runActions fails (setup_pf_and_dummynet host a.download a.upload) with
  | (performed, some c) =>
    have hpre : IsPrefixOf performed (setup_pf_and_dummynet host a.download a.upload) := by
      have := runActions_fst_isPre fails (setup_pf_and_dummynet host a.download a.upload)
      rwa [hr] at this
    have hccp : cleanupCount performed = 0 :=
      cleanupCount_eq_zero (fun _ hx h =>
        anchorFlushCmd_not_mem_setup host a.download a.upload (h ▸ hpre.mem hx))
    have hmain : main argv true fails intr =
        some ⟨1, [Action.print ("Setting up throttling for " ++ host),
                  Action.print ("Download speed: " ++ toString a.download ++ " Kbit/s"),
                  Action.print ("Upload speed: " ++ toString a.upload ++ " Kbit/s")]
              ++ performed ++ [Action.print (cmdErrText c)] ++ cleanup⟩ := by
      simp [main, hp, hh, hr]
    refine ⟨Or.inl ?_, fun h2 => by simp at h2, fun h2 => by simp at h2⟩
    rw [hmain]
    simp [cleanupCount_append, hccp, cleanupCount_cleanup, cleanupCount, anchorFlushCmd]
  | (performed, none) =>
    have hfull : performed = setup_pf_and_dummynet host a.download a.upload := by
      have h2 := runActions_none_full fails (setup_pf_and_dummynet host a.download a.upload)
      rw [hr] at h2
      exact h2 rfl
    cases intr with
    | true =>
      have hmain : main argv true fails true =
          some ⟨0, [Action.print ("Setting up throttling for " ++ host),
                    Action.print ("Download speed: " ++ toString a.download ++ " Kbit/s"),
                    Action.print ("Upload speed: " ++ toString a.upload ++ " Kbit/s")]
                ++ performed
                ++ [Action.print "\nThrottling is now active. Press Ctrl+C to stop and cleanup."]
                ++ cleanup⟩ := by
        simp [main, hp, hh, hr]
      have hcc : cleanupCount performed = 0 := by
        rw [hfull]; exact cleanupCount_setup host a.download a.upload
      refine ⟨Or.inl ?_, fun _ _ => ?_, fun _ h => by simp at h⟩
      · rw [hmain]
        simp [cleanupCount_append, hcc, cleanupCount_cleanup, cleanupCount, anchorFlushCmd]
      · rw [hmain]
        simp [cleanupCount_append, hcc, cleanupCount_cleanup, cleanupCount, anchorFlushCmd]
    | false =>
      have hmain : main argv true fails false = none := by
        simp [main, hp, hh, hr]
      exact ⟨Or.inr hmain, fun _ h => by simp at h, fun _ _ => hmain⟩

/-- C4, witness: a concrete run in which every command succeeds and an
interrupt arrives during the wait loop exits 0 with exactly one cleanup. -/
theorem cleanup_runs_once_on_every_exit_witness :
    (main ["http://example.com/"] true (fun _ => false) true).map
        (fun r => (r.exitCode, cleanupCount r.trace)) = some (0, 1) :=
  (cleanup_runs_once_on_every_exit ["http://example.com/"]
    ⟨"http://example.com/", 1000, 1000⟩ "example.com" (fun _ => false) true
    (by decide) (by decide)).2.1 (by decide) rfl

/-- C5: for every hostname and rates, the loaded anchor rule set exempts
loopback traffic (`no dummynet quick on lo0 all`), assigns no pipe to
traffic whose destination is any other host, and sends traffic addressed to
the target host - both TCP and UDP, in both directions - to pipe 1 when
inbound and pipe 2 when outbound; the `dnctl` commands of the same setup
configure pipe 1 at the download rate and pipe 2 at the upload rate, so in
particular with download=500 and upload=200, the inbound pipe is limited to
500 Kbit/s and the outbound pipe to 200 Kbit/s. -/
theorem throttle_rules_classify_traffic
    (host : String) (dl ul : Int) (p : Packet) :
    (p.iface = "lo0" → assignedPipe host p = none)
    ∧ (p.dst ≠ host → assignedPipe host p = none)
    ∧ (p.iface ≠ "lo0" → p.dst = host →
        assignedPipe host p = some (dirPipe p.dir)
        ∧ pipeBw dl ul (dirPipe p.dir)
            = some (match p.dir with | Dir.inbound => dl | Dir.outbound => ul))
    ∧ Action.run ["dnctl", "pipe", "1", "config", "bw",
        toString dl ++ "Kbit/s", "queue", "10"] true ∈ setup_pf_and_dummynet host dl ul
    ∧ Action.run ["dnctl", "pipe", "2", "config", "bw",
        toString ul ++ "Kbit/s", "queue", "10"] true ∈ setup_pf_and_dummynet host dl ul
    ∧ Action.run ["dnctl", "pipe", "1", "config", "bw",
        "500Kbit/s", "queue", "10"] true ∈ setup_pf_and_dummynet host 500 200
    ∧ pipeBw 500 200 1 = some 500 ∧ pipeBw 500 200 2 = some 200 := by
  obtain ⟨iface, dir, proto, src, dst⟩ := p
  have h500 : ("500Kbit/s" : String) = toString (500 : Int) ++ "Kbit/s" := by decide
  refine ⟨?_, ?_, ?_, by simp [setup_pf_and_dummynet], by simp [setup_pf_and_dummynet],
    by rw [h500]; simp [setup_pf_and_dummynet], rfl, rfl⟩
  · intro h
    simp only at h
    cases dir <;> cases proto <;>
      simp [assignedPipe, pf_rules_structured, evalRules, h]
  · intro h
    simp only at h
    by_cases hl : iface = "lo0" <;> cases dir <;> cases proto <;>
      simp [assignedPipe, pf_rules_structured, evalRules, hl, h]
  · intro h1 h2
    simp only at h1 h2
    cases dir <;> cases proto <;>
      simp [assignedPipe, pf_rules_structured, evalRules, dirPipe, pipeBw, h1, h2]

/-- C5, witness: concrete packets at host "example.com" with rates 500/200:
inbound TCP to the host goes to pipe 1 (500 Kbit/s), outbound UDP to the
host to pipe 2 (200 Kbit/s), loopback traffic and traffic to another host
get no pipe. -/
theorem throttle_rules_classify_traffic_witness :
    assignedPipe "example.com"
        (Packet.mk "en0" Dir.inbound Proto.tcp "10.0.0.1" "example.com") = some 1
    ∧ pipeBw 500 200 1 = some 500
    ∧ assignedPipe "example.com"
        (Packet.mk "en1" Dir.outbound Proto.udp "10.0.0.1" "example.com") = some 2
    ∧ pipeBw 500 200 2 = some 200
    ∧ assignedPipe "example.com"
        (Packet.mk "lo0" Dir.inbound Proto.tcp "127.0.0.1" "example.com") = none
    ∧ assignedPipe "example.com"
        (Packet.mk "en0" Dir.outbound Proto.tcp "10.0.0.1" "other.org") = none := by
  have h1 := throttle_rules_classify_traffic "example.com" 500 200
    (Packet.mk "en0" Dir.inbound Proto.tcp "10.0.0.1" "example.com")
  have h2 := throttle_rules_classify_traffic "example.com" 500 200
    (Packet.mk "en1" Dir.outbound Proto.udp "10.0.0.1" "example.com")
  have h3 := throttle_rules_classify_traffic "example.com" 500 200
    (Packet.mk "lo0" Dir.inbound Proto.tcp "127.0.0.1" "example.com")
  have h4 := throttle_rules_classify_traffic "example.com" 500 200
    (Packet.mk "en0" Dir.outbound Proto.tcp "10.0.0.1" "other.org")
  exact ⟨(h1.2.2.1 (by decide) rfl).1, h1.2.2.2.2.2.2.1,
    (h2.2.2.1 (by decide) rfl).1, h2.2.2.2.2.2.2.2,
    h3.1 rfl, h4.2.1 (by decide)⟩

/-- C6, counterexample: for the valid URL `http://EXAMPLE.com/x`, the
hostname the script extracts is the lowercased `example.com`, which is not
string-equal to the URL's host component `EXAMPLE.com`. -/
theorem hostname_lowercased_cex :
    urlparseHostname "http://EXAMPLE.com/x" = some "example.com"
    ∧ specHostComponent "http://EXAMPLE.com/x" = some "EXAMPLE.com"
    ∧ ("example.com" : String) ≠ "EXAMPLE.com" := by
  refine ⟨by decide, by decide, by decide⟩

/-- Auxiliary: a successful `hostRaw` never returns the empty character
list. -/
theorem hostRaw_ne_nil (url : String) (hl : List Char)
    (h : hostRaw url = some hl) : hl ≠ [] := by
  unfold hostRaw at h
  cases hnl : netlocOf (stripScheme url.data) with
  | none => rw [hnl] at h; simp at h
  | some nl =>
    rw [hnl] at h
    simp only [Option.bind] at h
    cases hh : hostOf (afterLastAt nl) with
    | nil => rw [hh] at h; simp [hostNonempty] at h
    | cons c t =>
      rw [hh] at h
      simp only [hostNonempty, Option.some.injEq] at h
      subst h
      simp

/-- C6, amended: for every URL with a host component, the hostname the
script extracts is defined, non-empty, and equal to the URL's host
component converted to lowercase (Python's `hostname` property lowercases
the host; apart from that lowercasing the two coincide). -/
theorem extracted_hostname_eq_lower_host_component
    (url : String) (h : String) (hspec : specHostComponent url = some h) :
    h ≠ "" ∧ urlparseHostname url = some (strLower h) ∧ strLower h ≠ "" := by
  obtain ⟨hl, hraw, hmk⟩ : ∃ hl, hostRaw url = some hl ∧ String.mk hl = h := by
    unfold specHostComponent at hspec
    cases hr : hostRaw url with
    | none => rw [hr] at hspec; simp at hspec
    | some hl =>
      rw [hr] at hspec
      simp only [Option.map_some', Option.some.injEq] at hspec
      exact ⟨hl, rfl, hspec⟩
  have hne : hl ≠ [] := hostRaw_ne_nil url hl hraw
  subst hmk
  refine ⟨?_, ?_, ?_⟩
  · intro hcontra
    exact hne (congrArg String.data hcontra)
  · unfold urlparseHostname
    rw [hraw]
    rfl
  · intro hcontra
    have hdata : (hl.map Char.toLower) = [] := congrArg String.data hcontra
    rw [List.map_eq_nil_iff] at hdata
    exact hne hdata

/-- C6, witness for the amended theorem at the URL `http://example.com/`. -/
theorem extracted_hostname_eq_lower_host_component_witness :
    ("example.com" : String) ≠ ""
    ∧ urlparseHostname "http://example.com/" = some (strLower "example.com")
    ∧ strLower "example.com" ≠ "" :=
  extracted_hostname_eq_lower_host_component "http://example.com/" "example.com"
    (by decide)

/-- C7: for every invocation whose URL has no extractable hostname, and for
every invocation lacking root privilege, the program exits with code 1,
its trace contains no cleanup invocation and no mutating action (no command
is run, no file written) - only the single diagnostic line it prints. -/
theorem early_exit_without_mutation
    (argv : List String) (a : Args) (isRoot : Bool) (fails : List String → Bool)
    (intr : Bool)
    (hp : parseArgs argv = some a)
    (hbad : urlparseHostname a.url = none ∨ isRoot = false) :
    (main argv isRoot fails intr).map
        (fun r => (r.exitCode, cleanupCount r.trace, r.trace.filter isMutating,
                   r.trace.length))
      = some (1, 0, [], 1) := by
  rcases hbad with hh | hroot
  · simp [main, hp, hh, cleanupCount, anchorFlushCmd, isMutating]
  · subst hroot
    cases hh : urlparseHostname a.url with
    | none => simp [main, hp, hh, cleanupCount, anchorFlushCmd, isMutating]
    | some host => simp [main, hp, hh, cleanupCount, anchorFlushCmd, isMutating]

/-- C7, witness: the hostless URL `notaurl` exits 1 with a single
non-mutating trace entry and no cleanup, even with root privilege. -/
theorem early_exit_without_mutation_witness :
    (main ["notaurl"] true (fun _ => false) false).map
        (fun r => (r.exitCode, cleanupCount r.trace, r.trace.filter isMutating,
                   r.trace.length))
      = some (1, 0, [], 1) :=
  early_exit_without_mutation ["notaurl"] ⟨"notaurl", 1000, 1000⟩ true
    (fun _ => false) false (by decide) (Or.inl (by decide))

/-- C8: cleanup never raises - under every failure environment all of its
actions are performed and no error escapes (both of its commands pass
`check=False`) - and it is idempotent on the OS state: a second invocation
leaves the state of the first unchanged. -/
theorem cleanup_idempotent_and_never_raises :
    (∀ fails : List String → Bool, runActions fails cleanup = (cleanup, none))
    ∧ ∀ s : OsState, applyActions (applyActions s cleanup) cleanup = applyActions s cleanup := by
  constructor
  · intro fails
    rfl
  · intro s
    rw [applyActions_cleanup, applyActions_cleanup]
    simp [assocSet_assocSet_self]

/-- C9, counterexample: the CLI accepts the non-positive download rate -5
(there is no positivity validation), and that value is passed verbatim into
the shaper configuration command as `-5Kbit/s`; this refutes the claim that
the accepted rate values are always positive. -/
theorem nonpositive_rate_accepted_cex :
    parseArgs ["http://example.com/", "--download", "-5"]
        = some ⟨"http://example.com/", -5, 1000⟩
    ∧ ¬(0 < (-5 : Int))
    ∧ Action.run ["dnctl", "pipe", "1", "config", "bw", "-5Kbit/s", "queue", "10"] true
        ∈ setup_pf_and_dummynet "example.com" (-5) 1000 := by
  refine ⟨by decide, by decide, by decide⟩

/-- Auxiliary: a token list without `--download` leaves the download
accumulator untouched. -/
theorem parseArgsAux_download_const :
    ∀ (n : Nat) (toks : List String), toks.length ≤ n → "--download" ∉ toks →
    ∀ (u : Option String) (d up : Int) (a : Args),
      parseArgsAux toks u d up = some a → a.download = d := by
  intro n
  induction n with
  | zero =>
    intro toks hlen _ u d up a hpa
    have : toks = [] := List.eq_nil_of_length_eq_zero (Nat.le_zero.mp hlen)
    subst this
    cases u with
    | none => simp [parseArgsAux] at hpa
    | some u0 =>
      simp only [parseArgsAux, Option.map_some', Option.some.injEq] at hpa
      subst hpa
      rfl
  | succ n ih =>
    intro toks hlen hmem u d up a hpa
    rcases toks with _ | ⟨t, rest⟩
    · cases u with
      | none => simp [parseArgsAux] at hpa
      | some u0 =>
        simp only [parseArgsAux, Option.map_some', Option.some.injEq] at hpa
        subst hpa
        rfl
    · have htd : t ≠ "--download" := fun h => hmem (h ▸ List.mem_cons_self t rest)
      rcases rest with _ | ⟨v, rest⟩
      · simp only [parseArgsAux] at hpa
        by_cases h1 : t = "--download" ∨ t = "--upload"
        · rw [if_pos h1] at hpa; simp at hpa
        · rw [if_neg h1] at hpa
          by_cases h2 : isOptionLike t = true
          · rw [if_pos h2] at hpa; simp at hpa
          · rw [if_neg h2] at hpa
            by_cases h3 : u = none
            · rw [if_pos h3] at hpa
              simp only [Option.some.injEq] at hpa
              subst hpa
              rfl
            · rw [if_neg h3] at hpa; simp at hpa
      · have hmem2 : "--download" ∉ v :: rest :=
          fun h => hmem (List.mem_cons_of_mem t h)
        have hmem3 : "--download" ∉ rest :=
          fun h => hmem2 (List.mem_cons_of_mem v h)
        simp only [parseArgsAux, if_neg htd] at hpa
        by_cases htu : t = "--upload"
        · rw [if_pos htu] at hpa
          cases hpi : parseInt v with
          | none => rw [hpi] at hpa; simp at hpa
          | some m =>
            rw [hpi] at hpa
            simp only [Option.bind] at hpa
            have hlen2 : rest.length ≤ n := by
              simp only [List.length_cons] at hlen
              omega
            exact ih rest hlen2 hmem3 u d m a hpa
        · rw [if_neg htu] at hpa
          by_cases hopt : isOptionLike t = true
          · rw [if_pos hopt] at hpa; simp at hpa
          · rw [if_neg hopt] at hpa
            by_cases hu : u = none
            · rw [if_pos hu] at hpa
              have hlen2 : (v :: rest).length ≤ n := by
                simp only [List.length_cons] at hlen ⊢
                omega
              exact ih (v :: rest) hlen2 hmem2 (some t) d up a hpa
            · rw [if_neg hu] at hpa; simp at hpa

/-- Auxiliary: a token list without `--upload` leaves the upload
accumulator untouched. -/
theorem parseArgsAux_upload_const :
    ∀ (n : Nat) (toks : List String), toks.length ≤ n → "--upload" ∉ toks →
    ∀ (u : Option String) (d up : Int) (a : Args),
      parseArgsAux toks u d up = some a → a.upload = up := by
  intro n
  induction n with
  | zero =>
    intro toks hlen _ u d up a hpa
    have : toks = [] := List.eq_nil_of_length_eq_zero (Nat.le_zero.mp hlen)
    subst this
    cases u with
    | none => simp [parseArgsAux] at hpa
    | some u0 =>
      simp only [parseArgsAux, Option.map_some', Option.some.injEq] at hpa
      subst hpa
      rfl
  | succ n ih =>
    intro toks hlen hmem u d up a hpa
    rcases toks with _ | ⟨t, rest⟩
    · cases u with
      | none => simp [parseArgsAux] at hpa
      | some u0 =>
        simp only [parseArgsAux, Option.map_some', Option.some.injEq] at hpa
        subst hpa
        rfl
    · have htu : t ≠ "--upload" := fun h => hmem (h ▸ List.mem_cons_self t rest)
      rcases rest with _ | ⟨v, rest⟩
      · simp only [parseArgsAux] at hpa
        by_cases h1 : t = "--download" ∨ t = "--upload"
        · rw [if_pos h1] at hpa; simp at hpa
        · rw [if_neg h1] at hpa
          by_cases h2 : isOptionLike t = true
          · rw [if_pos h2] at hpa; simp at hpa
          · rw [if_neg h2] at hpa
            by_cases h3 : u = none
            · rw [if_pos h3] at hpa
              simp only [Option.some.injEq] at hpa
              subst hpa
              rfl
            · rw [if_neg h3] at hpa; simp at hpa
      · have hmem2 : "--upload" ∉ v :: rest :=
          fun h => hmem (List.mem_cons_of_mem t h)
        have hmem3 : "--upload" ∉ rest :=
          fun h => hmem2 (List.mem_cons_of_mem v h)
        simp only [parseArgsAux] at hpa
        by_cases htd : t = "--download"
        · rw [if_pos htd] at hpa
          cases hpi : parseInt v with
          | none => rw [hpi] at hpa; simp at hpa
          | some m =>
            rw [hpi] at hpa
            simp only [Option.bind] at hpa
            have hlen2 : rest.length ≤ n := by
              simp only [List.length_cons] at hlen
              omega
            exact ih rest hlen2 hmem3 u m up a hpa
        · rw [if_neg htd, if_neg htu] at hpa
          by_cases hopt : isOptionLike t = true
          · rw [if_pos hopt] at hpa; simp at hpa
          · rw [if_neg hopt] at hpa
            by_cases hu : u = none
            · rw [if_pos hu] at hpa
              have hlen2 : (v :: rest).length ≤ n := by
                simp only [List.length_cons] at hlen ⊢
                omega
              exact ih (v :: rest) hlen2 hmem2 (some t) d up a hpa
            · rw [if_neg hu] at hpa; simp at hpa

/-- C9, amended: when the `--download` (resp. `--upload`) flag is omitted
the corresponding rate defaults to 1000 Kbit/s, and whatever integer the
CLI accepted - the CLI performs no positivity validation - is passed
verbatim into the `dnctl pipe config` commands of setup; see the
counterexample for an accepted non-positive value. -/
theorem rates_default_and_passed_verbatim
    (argv : List String) (a : Args) (host : String)
    (hp : parseArgs argv = some a) :
    ("--download" ∉ argv → a.download = 1000)
    ∧ ("--upload" ∉ argv → a.upload = 1000)
    ∧ Action.run ["dnctl", "pipe", "1", "config", "bw",
        toString a.download ++ "Kbit/s", "queue", "10"] true
        ∈ setup_pf_and_dummynet host a.download a.upload
    ∧ Action.run ["dnctl", "pipe", "2", "config", "bw",
        toString a.upload ++ "Kbit/s", "queue", "10"] true
        ∈ setup_pf_and_dummynet host a.download a.upload := by
  refine ⟨fun hmem => ?_, fun hmem => ?_,
    by simp [setup_pf_and_dummynet], by simp [setup_pf_and_dummynet]⟩
  · exact parseArgsAux_download_const argv.length argv le_rfl hmem none 1000 1000 a hp
  · exact parseArgsAux_upload_const argv.length argv le_rfl hmem none 1000 1000 a hp

/-- C9, witness for the amended theorem: the invocation with only the URL
token yields the 1000/1000 defaults, passed verbatim into the pipe
commands. -/
theorem rates_default_and_passed_verbatim_witness :
    ((⟨"http://example.com/", 1000, 1000⟩ : Args).download = 1000)
    ∧ ((⟨"http://example.com/", 1000, 1000⟩ : Args).upload = 1000)
    ∧ Action.run ["dnctl", "pipe", "1", "config", "bw",
        toString (⟨"http://example.com/", 1000, 1000⟩ : Args).download ++ "Kbit/s",
        "queue", "10"] true
        ∈ setup_pf_and_dummynet "example.com" 1000 1000 := by
  have h := rates_default_and_passed_verbatim ["http://example.com/"]
    ⟨"http://example.com/", 1000, 1000⟩ "example.com" (by decide)
  exact ⟨h.1 (by decide), h.2.1 (by decide), h.2.2.1⟩

/-- C10: setup writes the rules file at the fixed path
`/tmp/pf.rules.throttle`, overwriting whatever was there (from every
starting state, the file afterwards holds exactly the generated rule text),
cleanup never touches the file system, and so the file persists, with its
contents, after setup followed by cleanup. -/
theorem rules_file_fixed_path_persists
    (s : OsState) (host : String) (dl ul : Int) :
    Action.writeFile "/tmp/pf.rules.throttle" (pf_rules host)
        ∈ setup_pf_and_dummynet host dl ul
    ∧ lookupA "/tmp/pf.rules.throttle"
        (applyActions s (setup_pf_and_dummynet host dl ul)).files = some (pf_rules host)
    ∧ (∀ t : OsState, (applyActions t cleanup).files = t.files)
    ∧ lookupA "/tmp/pf.rules.throttle"
        (applyActions (applyActions s (setup_pf_and_dummynet host dl ul)) cleanup).files
        = some (pf_rules host) := by
  refine ⟨by simp [setup_pf_and_dummynet], ?_, fun t => by rw [applyActions_cleanup], ?_⟩
  · rw [applyActions_setup]
    exact lookupA_assocSet_self _ _ _
  · rw [applyActions_setup, applyActions_cleanup]
    exact lookupA_assocSet_self _ _ _

end NetworkThrottle
